import Mathlib

/-!
Verification model of the healthcare backend's appointment scheduler,
access checks, update filtering and audit recorder.

Times are modelled as integers: milliseconds since the epoch for absolute
instants (mirroring JavaScript `Date.getTime()`), and durations in minutes
as in the source.  Fallible lookups are `Option`; HTTP handlers are pure
functions from a request and a store snapshot to a status code and an
updated snapshot.
-/

namespace Healthcare

/-- Appointment status enum, from the Sequelize model `Appointment.status`
(`src/models/Appointment.js`). -/
inductive ApptStatus
  | scheduled
  | confirmed
  | in_progress
  | completed
  | cancelled
  | no_show
deriving DecidableEq, Repr

open ApptStatus

/-- `['scheduled', 'confirmed'].includes(status)` as used by the conflict
query and by `canBeCancelled`. -/
def isActiveStatus (s : ApptStatus) : Bool :=
  s = scheduled || s = confirmed

/-- An appointment row: the fields the scheduler reads.
`appointmentDate` is in milliseconds since the epoch, `duration` in
minutes (`src/models/Appointment.js`). -/
structure Appt where
  doctorId : Nat
  patientId : Nat
  appointmentDate : Int
  duration : Int
  status : ApptStatus
deriving DecidableEq, Repr

/-- Milliseconds in one minute, the `60000` factor used throughout the
source (`duration * 60000`). -/
def msPerMin : Int := 60000

/-- End instant of an appointment's half-open interval:
`appointmentDate + duration * 60000`. -/
def Appt.endTime (a : Appt) : Int :=
  a.appointmentDate + a.duration * msPerMin

/-- `canBeCancelled` from `src/models/Appointment.js` lines 156-162:
`hoursUntilAppointment = (appointmentTime - now) / (1000*60*60)` and the
result is `['scheduled','confirmed'].includes(status) && hoursUntilAppointment > 2`.
The division is exact rational division as in JavaScript floating point
(both operands are integral and well inside the exact range). -/
def canBeCancelled (status : ApptStatus) (appointmentDate now : Int) : Bool :=
  let hoursUntilAppointment : ℚ := ((appointmentDate : ℚ) - (now : ℚ)) / (1000 * 60 * 60)
  isActiveStatus status && hoursUntilAppointment > 2

/-- The conflict test the `POST /appointments` handler issues against one
stored row (`src/routes/appointmentRoutes.js` lines 259-281): the row
matches when it belongs to the doctor, has status scheduled/confirmed, and
its `appointmentDate` is either between `appointmentStart` and
`appointmentEnd` (inclusive, SQL BETWEEN) or lies in
`[appointmentStart - duration*60000, appointmentStart]` (inclusive). -/
def rowMatchesConflictQuery (doctorId : Nat) (appointmentStart appointmentEnd : Int)
    (duration : Int) (a : Appt) : Bool :=
  a.doctorId = doctorId && isActiveStatus a.status &&
    ((appointmentStart ≤ a.appointmentDate && a.appointmentDate ≤ appointmentEnd) ||
     (a.appointmentDate ≤ appointmentStart &&
      a.appointmentDate ≥ appointmentStart - duration * msPerMin))

/-- `Appointment.findOne` over the conflict query: some row matches. -/
def codeHasConflict (appts : List Appt) (doctorId : Nat) (appointmentStart : Int)
    (duration : Int) : Bool :=
  appts.any (rowMatchesConflictQuery doctorId appointmentStart
    (appointmentStart + duration * msPerMin) duration)

/-- The half-open interval overlap rule of the specification: intervals
`[s1,e1)` and `[s2,e2)` overlap iff `s1 < e2 AND s2 < e1`. -/
def halfOpenOverlap (s1 e1 s2 e2 : Int) : Bool :=
  s1 < e2 && s2 < e1

/-- Overlap of a proposed booking `[start, start + duration*60000)` with a
stored scheduled/confirmed row of the same doctor, per the spec's rule. -/
def specConflictsWith (doctorId : Nat) (start duration : Int) (a : Appt) : Bool :=
  a.doctorId = doctorId && isActiveStatus a.status &&
    halfOpenOverlap start (start + duration * msPerMin) a.appointmentDate a.endTime

/-- Outcome of the `POST /appointments` handler: HTTP status plus the
appointment table after the request. -/
structure PostResult where
  statusCode : Nat
  appts : List Appt
deriving DecidableEq, Repr

/-- A `POST /appointments` request body after parsing.  `duration` is
optional in the validator and defaults to 30 in the handler; `formatOk`
stands for the remaining express-validator checks (UUID ids, ISO-8601
date, type/reason/symptoms shapes), which are string-format checks on
fields the scheduler logic never inspects. -/
structure PostReq where
  patientId : Nat
  doctorId : Nat
  appointmentDate : Int
  duration : Option Int
  formatOk : Bool
deriving Repr

/-- The express-validator `duration` rule
(`src/routes/appointmentRoutes.js` lines 21-24): optional, integer in
[15, 240]. -/
def durationValid (d : Option Int) : Bool :=
  match d with
  | none => true
  | some n => 15 ≤ n && n ≤ 240

/-- The `POST /appointments` handler (`src/routes/appointmentRoutes.js`
lines 213-321), with its branch order preserved: validation (400),
patient/doctor existence (404), conflict query (409), past-date check
(400), then create (201).  `patients`/`doctors` are the id sets of the
store; `now` is the clock read by `new Date()`. -/
def postAppointment (patients doctors : List Nat) (appts : List Appt)
    (req : PostReq) (now : Int) : PostResult :=
  if !(req.formatOk && durationValid req.duration) then
    { statusCode := 400, appts := appts }
  else
    let duration := req.duration.getD 30
    if !(patients.contains req.patientId) then
      { statusCode := 404, appts := appts }
    else if !(doctors.contains req.doctorId) then
      { statusCode := 404, appts := appts }
    else if codeHasConflict appts req.doctorId req.appointmentDate duration then
      { statusCode := 409, appts := appts }
    else if req.appointmentDate ≤ now then
      { statusCode := 400, appts := appts }
    else
      { statusCode := 201,
        appts := appts ++ [{ doctorId := req.doctorId, patientId := req.patientId,
                             appointmentDate := req.appointmentDate,
                             duration := duration, status := scheduled }] }

/-! ### Availability slot generation
`GET /appointments/doctor/:doctorId/availability`
(`src/routes/appointmentRoutes.js` lines 504-593). -/

/-- A generated slot `{ start, end, duration }`; instants in milliseconds,
duration in minutes as pushed by the source. -/
structure Slot where
  start : Int
  «end» : Int
  duration : Nat
deriving DecidableEq, Repr

/-- The per-slot conflict test of the loop body (line 559):
`currentTime < appointmentEnd && slotEnd > appointmentStart` over the
fetched appointments. -/
def slotConflicts (appts : List Appt) (current slotEnd : Int) : Bool :=
  appts.any fun a => current < a.endTime && slotEnd > a.appointmentDate

/-- The store query of the availability route (lines 523-532): the
doctor's appointments with `appointmentDate` between start and end of day
(inclusive; `endOfDay = startOfDay + 23:59:59.999`) and status
scheduled/confirmed. -/
def dayAppointments (doctorId : Nat) (dayStart : Int) (appts : List Appt) : List Appt :=
  appts.filter fun a =>
    a.doctorId = doctorId &&
    dayStart ≤ a.appointmentDate && a.appointmentDate ≤ dayStart + 86399999 &&
    isActiveStatus a.status

/-- The `while (currentTime < endTime)` loop (lines 549-571): step
`durMin * 60000` ms, emit the slot unless it conflicts.  `hd` reflects
that the source's step is the doctor's `consultationDuration || 30`,
which is a positive number of minutes. -/
def slotsLoop (appts : List Appt) (durMin : Nat) (hd : 0 < durMin)
    (endTime : Int) (current : Int) : List Slot :=
  if _h : current < endTime then
    let slotEnd := current + (durMin : Int) * msPerMin
    let rest := slotsLoop appts durMin hd endTime (current + (durMin : Int) * msPerMin)
    if slotConflicts appts current slotEnd then rest
    else { start := current, «end» := slotEnd, duration := durMin } :: rest
  else []
termination_by (endTime - current).toNat
decreasing_by
  simp only [msPerMin]
  omega

/-- JavaScript `x || d` on a number: `0` is falsy. -/
def jsOrNat (x d : Nat) : Nat :=
  if x = 0 then d else x

theorem jsOrNat_pos (x d : Nat) (hd : 0 < d) : 0 < jsOrNat x d := by
  unfold jsOrNat
  split <;> omega

/-- The full slot computation of the availability route: fetch the day's
scheduled/confirmed appointments of the doctor, take the window
`[availableHours.start, availableHours.end)` (minutes from midnight,
defaults 09:00/17:00 applied upstream of this function) on the day
starting at `dayStart`, and run the generation loop with chunk size
`consultationDuration || 30`. -/
def availableSlots (doctorId : Nat) (dayStart : Int) (startMin endMin : Nat)
    (consultationDuration : Nat) (appts : List Appt) : List Slot :=
  let dur := jsOrNat consultationDuration 30
  let dayAppts := dayAppointments doctorId dayStart appts
  let startTime : Int := dayStart + (startMin : Int) * msPerMin
  let endTime : Int := dayStart + (endMin : Int) * msPerMin
  slotsLoop dayAppts dur (jsOrNat_pos _ _ (by omega)) endTime startTime

/-- Reference chunk list: the first `n` chunk start instants, spaced
`durMin` minutes, filtered by the half-open overlap rule and packaged as
slots.  This is the building block of the specification's partition. -/
def chunkSlots (appts : List Appt) (durMin : Nat) (n : Nat) (first : Int) : List Slot :=
  (((List.range n).map fun (i : Nat) =>
        first + (i : Int) * ((durMin : Int) * msPerMin)).filter
      fun s => !slotConflicts appts s (s + (durMin : Int) * msPerMin)).map
    fun s => { start := s, «end» := s + (durMin : Int) * msPerMin, duration := durMin }

/-- Modelled from the spec's words (§4.2 slot generation): partition the
daily window into `⌈windowLength / dur⌉` consecutive chunks of `dur`
minutes starting at the window's start, and emit a chunk iff it does not
overlap (half-open rule) any fetched scheduled/confirmed appointment. -/
def specAvailableSlots (doctorId : Nat) (dayStart : Int) (startMin endMin : Nat)
    (consultationDuration : Nat) (appts : List Appt) : List Slot :=
  let dur := jsOrNat consultationDuration 30
  let dayAppts := dayAppointments doctorId dayStart appts
  let n := (endMin - startMin + dur - 1) / dur
  chunkSlots dayAppts dur n (dayStart + (startMin : Int) * msPerMin)

/-! ### Per-route access checks and update filtering -/

/-- The three user roles (`User.role`). -/
inductive Role
  | admin
  | doctor
  | patient
deriving DecidableEq, Repr

/-- `GET /appointments/:id` (`src/routes/appointmentRoutes.js` lines
141-210): 404 when the appointment is absent; for a patient actor, 403
unless `Patient.findOne({userId})` yields a profile whose id equals the
appointment's `patientId`; symmetrically for a doctor actor; otherwise
200.  `patientProfileId`/`doctorProfileId` are the ids of the actor's
profiles as found by those lookups (`none` = no profile row). -/
def getAppointmentById (role : Role) (patientProfileId doctorProfileId : Option Nat)
    (appt : Option Appt) : Nat :=
  match appt with
  | none => 404
  | some a =>
    if role = Role.patient &&
        !(match patientProfileId with
          | none => false
          | some pid => pid = a.patientId) then 403
    else if role = Role.doctor &&
        !(match doctorProfileId with
          | none => false
          | some did => did = a.doctorId) then 403
    else 200

/-- JSON-ish values, for request/response bodies handled by the update
route and the audit sanitizers. -/
inductive JVal
  | vNull
  | vBool (b : Bool)
  | vNum (n : Int)
  | vStr (s : String)
  | vArr (xs : List JVal)
  | vObj (fields : List (String × JVal))

open JVal

/-- JavaScript truthiness of a JSON value (`null`, `false`, `0` and the
empty string are falsy; arrays and objects are always truthy). -/
def truthy : JVal → Bool
  | vNull => false
  | vBool b => b
  | vNum n => n != 0
  | vStr s => s != ""
  | vArr _ => true
  | vObj _ => true

/-- An appointment row as touched by `PUT /appointments/:id`; field values
kept as raw JSON since the route copies request-body values through
unchanged. -/
structure ApptRow where
  patientId : JVal
  doctorId : JVal
  appointmentDate : JVal
  duration : JVal
  status : JVal
  «type» : JVal
  reason : JVal
  symptoms : JVal
  notes : JVal
  diagnosis : JVal
  prescription : JVal
  followUpRequired : JVal
  followUpDate : JVal
  cost : JVal
  paymentStatus : JVal

/-- Applying one `updateData` attribute to the row (`appointment.update`):
only model attributes named by an allowed field can be set; the allowed
lists only ever contain these eight names. -/
def setApptField (r : ApptRow) (k : String) (v : JVal) : ApptRow :=
  if k = "notes" then { r with notes := v }
  else if k = "diagnosis" then { r with diagnosis := v }
  else if k = "prescription" then { r with prescription := v }
  else if k = "followUpRequired" then { r with followUpRequired := v }
  else if k = "followUpDate" then { r with followUpDate := v }
  else if k = "status" then { r with status := v }
  else if k = "cost" then { r with cost := v }
  else if k = "paymentStatus" then { r with paymentStatus := v }
  else r

/-- `PUT /appointments/:id` field filtering (`src/routes/appointmentRoutes.js`
lines 370-383): the allowed fields are notes, diagnosis, prescription,
followUpRequired, followUpDate, with status, cost, paymentStatus added
for a doctor actor; `updateData` keeps exactly the body keys in that
list, and the row is updated with those attributes. -/
def updateAppointmentFields (role : Role) (body : List (String × JVal))
    (r : ApptRow) : ApptRow :=
  let allowedFields :=
    ["notes", "diagnosis", "prescription", "followUpRequired", "followUpDate"] ++
      (if role = Role.doctor then ["status", "cost", "paymentStatus"] else [])
  let updateData := body.filter fun kv => allowedFields.contains kv.1
  updateData.foldl (fun acc kv => setApptField acc kv.1 kv.2) r

/-! ### Audit recorder (`src/middleware/auditLogger.js`) -/

/-- `haystack.includes(needle)` on strings, via character lists. -/
def strIncludes (haystack needle : String) : Bool :=
  go haystack.data
where
  go : List Char → Bool
    | [] => needle.data.isEmpty
    | c :: t => needle.data.isPrefixOf (c :: t) || go t

/-- A request descriptor as the audit middleware sees it.  `statusCode`
models the source's reads of `req.statusCode`: an Express request object
has no such property, so the read yields `undefined` (`none`); the
middleware always constructs requests with `statusCode = none`. -/
structure AuditReq where
  method : String
  path : String
  userRole : Option Role
  statusCode : Option Int
deriving Repr

/-- JavaScript `x >= n` when `x` may be `undefined`: comparison with
`undefined` is always false. -/
def jsGE (x : Option Int) (n : Int) : Bool :=
  match x with
  | none => false
  | some v => v ≥ n

/-- `getActionFromRequest` (lines 66-83). -/
def getActionFromRequest (req : AuditReq) : String :=
  if strIncludes req.path "/auth/login" then "login_attempt"
  else if strIncludes req.path "/auth/logout" then "logout"
  else if strIncludes req.path "/auth/register" then "user_registration"
  else if strIncludes req.path "/auth/change-password" then "password_change"
  else if req.method = "GET" then "read"
  else if req.method = "POST" then "create"
  else if req.method = "PUT" || req.method = "PATCH" then "update"
  else if req.method = "DELETE" then "delete"
  else "unknown"

/-- `getResourceFromEndpoint` (lines 86-97). -/
def getResourceFromEndpoint (path : String) : String :=
  if strIncludes path "/users" then "user"
  else if strIncludes path "/patients" then "patient"
  else if strIncludes path "/doctors" then "doctor"
  else if strIncludes path "/appointments" then "appointment"
  else if strIncludes path "/medical-records" then "medical_record"
  else if strIncludes path "/patient-doctors" then "patient_doctor_relationship"
  else if strIncludes path "/auth" then "authentication"
  else if strIncludes path "/upload" then "file_upload"
  else "unknown"

/-- `getCategoryFromRequest` (lines 100-110); note the source reads
`req.statusCode` here. -/
def getCategoryFromRequest (req : AuditReq) (action : String) : String :=
  if strIncludes req.path "/auth" then "authentication"
  else if action = "read" && req.userRole = some Role.patient then "data_access"
  else if action = "create" || action = "update" || action = "delete" then "data_modification"
  else if strIncludes req.path "/upload" then "system"
  else if jsGE req.statusCode 400 then "error"
  else "system"

/-- `getSeverityFromRequest` (lines 113-125); `statusCode` is read from
the request object. -/
def getSeverityFromRequest (req : AuditReq) (action : String) : String :=
  if action = "login_attempt" && jsGE req.statusCode 400 then "high"
  else if strIncludes req.path "/auth/change-password" then "high"
  else if action = "delete" then "high"
  else if jsGE req.statusCode 500 then "critical"
  else if jsGE req.statusCode 400 then "medium"
  else "low"

/-- The audit fact assembled by the middleware's finish handler; only the
fields the claims are about. -/
structure AuditEntry where
  action : String
  resource : String
  category : String
  severity : String
  statusCode : Int
  isSuccessful : Bool
deriving DecidableEq, Repr

/-- The derived audit entry of the `auditLogger` middleware (lines 5-59):
action, resource, category and severity are computed from the request
(before any response exists, so `req.statusCode` is `none`);
`statusCode` and `isSuccessful` come from the finished response. -/
def auditLoggerEntry (method path : String) (userRole : Option Role)
    (resStatusCode : Int) : AuditEntry :=
  let req : AuditReq := { method := method, path := path, userRole := userRole,
                          statusCode := none }
  let action := getActionFromRequest req
  { action := action
    resource := getResourceFromEndpoint req.path
    category := getCategoryFromRequest req action
    severity := getSeverityFromRequest req action
    statusCode := resStatusCode
    isSuccessful := resStatusCode < 400 }

/-- The sensitive-field list of `sanitizeRequestData` (line 153). -/
def sensitiveFields : List String :=
  ["password", "token", "secret", "key", "ssn", "creditCard"]

/-- Body sanitization (lines 151-161): shallow-copy the body and, for
each sensitive field name, overwrite the top-level entry with
'[REDACTED]' when its current value is truthy. -/
def sanitizeBody (body : List (String × JVal)) : List (String × JVal) :=
  body.map fun kv =>
    if sensitiveFields.contains kv.1 && truthy kv.2 then (kv.1, JVal.vStr "[REDACTED]")
    else kv

/-- Output shape of `sanitizeRequestData` (lines 145-164): params and
query are passed through; the body key is present only when the body was
truthy, holding the sanitized body. -/
structure SanitizedRequest where
  params : List (String × JVal)
  query : List (String × JVal)
  body : Option (List (String × JVal))

/-- `sanitizeRequestData(body, query, params)`. -/
def sanitizeRequestData (body : Option (List (String × JVal)))
    (query params : List (String × JVal)) : SanitizedRequest :=
  { params := params, query := query, body := body.map sanitizeBody }

/-- A parsed response body as `sanitizeResponseData` inspects it: its
`status`, `message` and `data` properties (each possibly absent), where
`data` may be the full payload of any shape.  The source's
`JSON.parse` of string bodies is the identity on this parsed view. -/
structure RespData where
  status : Option String
  message : Option String
  data : Option JVal

/-- `parsed.data ? (Array.isArray(parsed.data) ? parsed.data.length : 1) : 0`
(line 177). -/
def dataCount (d : Option JVal) : Nat :=
  match d with
  | none => 0
  | some v =>
    if truthy v then
      match v with
      | JVal.vArr xs => xs.length
      | _ => 1
    else 0

/-- What the audit entry stores for a response: only this summary record,
never the payload. -/
structure RespSummary where
  status : String
  message : Option String
  dataCount : Nat
deriving DecidableEq, Repr

/-- `sanitizeResponseData` (lines 166-182): `null` for a falsy input,
otherwise `{status: parsed.status || 'unknown', message: parsed.message || null,
dataCount}`. -/
def sanitizeResponseData (d : Option RespData) : Option RespSummary :=
  match d with
  | none => none
  | some r =>
    some { status := match r.status with
                     | none => "unknown"
                     | some s => if s = "" then "unknown" else s
           message := match r.message with
                      | none => none
                      | some m => if m = "" then none else some m
           dataCount := dataCount r.data }

/-! ### Best-effort audit write (`AuditLog.logAction` and the middleware
finish handler) -/

/-- A fallible store write: `Except.error` stands for a thrown/rejected
`AuditLog.create`. -/
def tryCatch {α : Type} (x : Except String α) (handler : String → α) : α :=
  match x with
  | .ok a => a
  | .error e => handler e

/-- `AuditLog.logAction` (`src/unnamed/part_003` lines 358-387): the
create is wrapped in try/catch; on failure the error is logged and `null`
is returned — no exception escapes. -/
def logAction (createResult : Except String AuditEntry) : Option AuditEntry :=
  tryCatch (createResult.map some) (fun _ => none)

/-- The middleware's `res.on('finish')` handler (`auditLogger.js` lines
27-59) runs after the response is finalized and wraps the `logAction`
call in its own try/catch.  The pair is (client-visible response, audit
outcome): the response component is fixed before the audit attempt. -/
def respondThenAudit (clientResponse : Nat)
    (createResult : Except String AuditEntry) : Nat × Option AuditEntry :=
  (clientResponse, tryCatch (Except.ok (logAction createResult)) (fun _ => none))

/-- JavaScript `x || d` on a possibly-absent string option
(`data.severity || 'medium'` and friends). -/
def orDefault (x : Option String) (d : String) : String :=
  match x with
  | none => d
  | some s => if s = "" then d else s

/-- Severity as persisted by `AuditLog.logAction`
(`data.severity || 'low'`, `src/unnamed/part_003` line 372). -/
def logActionSeverity (sev : Option String) : String :=
  orDefault sev "low"

/-- Severity filled in by `logAuthenticationEvent`
(`data.severity || 'medium'`, `auditLogger.js` line 213). -/
def logAuthenticationEventSeverity (sev : Option String) : String :=
  orDefault sev "medium"

/-- The audit entry produced by the dedicated `auditLoginAttempt` helper
(`auditLogger.js` lines 227-240) through `logAuthenticationEvent` and
`AuditLog.logAction`: `auditLoginAttempt` passes no severity, so
`logAuthenticationEvent` fills in 'medium'. -/
def auditLoginAttemptEntry (isSuccessful : Bool) : AuditEntry :=
  { action := "login_attempt"
    resource := "authentication"
    category := "authentication"
    severity := logActionSeverity (some (logAuthenticationEventSeverity none))
    statusCode := if isSuccessful then 200 else 401
    isSuccessful := isSuccessful }

/-! ## Theorems -/

/-- C5: `canCancel(appointment, now)` returns true iff
`appointment.status ∈ {scheduled, confirmed}` and
`appointmentStart - now > 2 hours`; in particular it is true for a
scheduled appointment 3 hours from now, false for one 1 hour from now,
and false for one already cancelled. -/
theorem canBeCancelled_correct :
    (∀ (s : ApptStatus) (d now : Int),
      canBeCancelled s d now = true ↔
        ((s = ApptStatus.scheduled ∨ s = ApptStatus.confirmed) ∧
          d - now > 2 * 3600000)) ∧
    canBeCancelled ApptStatus.scheduled (3 * 3600000) 0 = true ∧
    canBeCancelled ApptStatus.scheduled 3600000 0 = false ∧
    canBeCancelled ApptStatus.cancelled (3 * 3600000) 0 = false := by
  have hmain : ∀ (s : ApptStatus) (d now : Int),
      canBeCancelled s d now = true ↔
        ((s = ApptStatus.scheduled ∨ s = ApptStatus.confirmed) ∧
          d - now > 2 * 3600000) := by
    intro s d now
    unfold canBeCancelled isActiveStatus
    simp only [Bool.and_eq_true, Bool.or_eq_true, decide_eq_true_eq]
    constructor
    · rintro ⟨hs, hq⟩
      refine ⟨hs, ?_⟩
      have hq' : (2 : ℚ) * (1000 * 60 * 60) < (d : ℚ) - (now : ℚ) := by
        have h60 : (0 : ℚ) < 1000 * 60 * 60 := by norm_num
        calc (2 : ℚ) * (1000 * 60 * 60)
            < (((d : ℚ) - now) / (1000 * 60 * 60)) * (1000 * 60 * 60) :=
              (mul_lt_mul_right h60).mpr hq
          _ = (d : ℚ) - now := div_mul_cancel₀ _ (ne_of_gt h60)
      have : ((2 * 3600000 : Int) : ℚ) < ((d - now : Int) : ℚ) := by push_cast; linarith
      exact_mod_cast this
    · rintro ⟨hs, hq⟩
      refine ⟨hs, ?_⟩
      have hq' : ((2 * 3600000 : Int) : ℚ) < ((d - now : Int) : ℚ) := by exact_mod_cast hq
      have h60 : (0 : ℚ) < 1000 * 60 * 60 := by norm_num
      rw [gt_iff_lt, lt_div_iff₀ h60]
      push_cast at hq' ⊢
      linarith
  refine ⟨hmain, ?_, ?_, ?_⟩
  · exact (hmain _ _ _).mpr ⟨Or.inl rfl, by norm_num⟩
  · rw [Bool.eq_false_iff]
    intro h
    rcases (hmain _ _ _).mp h with ⟨-, h2⟩
    norm_num at h2
  · rw [Bool.eq_false_iff]
    intro h
    rcases (hmain _ _ _).mp h with ⟨h1, -⟩
    rcases h1 with h1 | h1 <;> exact absurd h1 (by decide)

/-- C6: for a read of a single appointment by a patient actor, access is
allowed (200) iff the actor's patient profile id equals the appointment's
`patientId`, and denied (403) otherwise; concretely, reading another
patient's appointment yields 403 and reading one's own yields 200. -/
theorem patient_read_appointment_access :
    (∀ (patientProfileId doctorProfileId : Option Nat) (a : Appt),
      (getAppointmentById Role.patient patientProfileId doctorProfileId (some a) = 200 ↔
        patientProfileId = some a.patientId) ∧
      (getAppointmentById Role.patient patientProfileId doctorProfileId (some a) = 403 ↔
        patientProfileId ≠ some a.patientId)) ∧
    getAppointmentById Role.patient (some 5) none
      (some { doctorId := 2, patientId := 7, appointmentDate := 0, duration := 30,
              status := ApptStatus.scheduled }) = 403 ∧
    getAppointmentById Role.patient (some 7) none
      (some { doctorId := 2, patientId := 7, appointmentDate := 0, duration := 30,
              status := ApptStatus.scheduled }) = 200 := by
  refine ⟨?_, by decide, by decide⟩
  intro pp dp a
  cases pp with
  | none => simp [getAppointmentById]
  | some pid =>
    by_cases h : pid = a.patientId <;>
      simp [getAppointmentById, h]

/-- C9: a failure of the audit-log write never changes the client-visible
outcome: `logAction` catches the store error and returns no entry, the
finish handler catches anything that remains, and the response component
is the primary response for every audit outcome. -/
theorem audit_write_best_effort :
    (∀ (resp : Nat) (c : Except String AuditEntry),
      (respondThenAudit resp c).1 = resp) ∧
    (∀ (resp : Nat) (msg : String),
      respondThenAudit resp (Except.error msg) = (resp, none)) ∧
    (∀ (resp : Nat) (e : AuditEntry),
      respondThenAudit resp (Except.ok e) = (resp, some e)) := by
  refine ⟨fun resp c => rfl, fun resp msg => rfl, fun resp e => rfl⟩

/-- C7 (code evaluation at the failing input): for a `POST /api/auth/login`
request finishing with status 401, the middleware-derived audit entry has
action `login_attempt`, category `authentication`, `isSuccessful = false` —
but severity `low`, not `high`: severity is derived from `req.statusCode`,
which does not exist on the request object.  The dedicated
`auditLoginAttempt` helper also never yields `high`: it defaults to
`medium`. -/
theorem failed_login_audit_severity_low :
    auditLoggerEntry "POST" "/api/auth/login" none 401 =
      { action := "login_attempt", resource := "authentication",
        category := "authentication", severity := "low",
        statusCode := 401, isSuccessful := false } ∧
    (auditLoginAttemptEntry false).severity = "medium" ∧
    "low" ≠ "high" ∧
    "medium" ≠ "high" := by
  exact ⟨by decide, by decide, by decide, by decide⟩

/-- C2 (code evaluation at the failing inputs): the booking conflict test
is not the half-open interval rule.  An existing scheduled appointment
09:00-11:00 (duration 120) of the same doctor does not match the code's
conflict query for a proposed 10:00-10:30 booking even though the
intervals overlap half-openly; and an existing appointment starting
exactly at the proposed end (10:30) does match the query even though
touching endpoints do not overlap. -/
theorem conflict_query_not_half_open :
    codeHasConflict
      [{ doctorId := 1, patientId := 1, appointmentDate := 32400000,
         duration := 120, status := ApptStatus.scheduled }] 1 36000000 30 = false ∧
    specConflictsWith 1 36000000 30
      { doctorId := 1, patientId := 1, appointmentDate := 32400000,
        duration := 120, status := ApptStatus.scheduled } = true ∧
    codeHasConflict
      [{ doctorId := 1, patientId := 1, appointmentDate := 37800000,
         duration := 30, status := ApptStatus.scheduled }] 1 36000000 30 = true ∧
    specConflictsWith 1 36000000 30
      { doctorId := 1, patientId := 1, appointmentDate := 37800000,
        duration := 30, status := ApptStatus.scheduled } = false := by
  exact ⟨by decide, by decide, by decide, by decide⟩

/-- C1 (code evaluation at the failing input): with a scheduled
appointment 09:00-11:00 for doctor 1 already stored, a POST for the same
doctor at 10:00-10:30 is accepted with 201 and a new row is appended,
although the two intervals overlap under the half-open rule — the
no-overlap invariant is violated rather than answered with 409. -/
theorem overlapping_create_not_rejected :
    postAppointment [1] [1]
      [{ doctorId := 1, patientId := 1, appointmentDate := 32400000,
         duration := 120, status := ApptStatus.scheduled }]
      { patientId := 1, doctorId := 1, appointmentDate := 36000000,
        duration := some 30, formatOk := true } 0 =
      { statusCode := 201,
        appts := [{ doctorId := 1, patientId := 1, appointmentDate := 32400000,
                    duration := 120, status := ApptStatus.scheduled },
                  { doctorId := 1, patientId := 1, appointmentDate := 36000000,
                    duration := 30, status := ApptStatus.scheduled }] } ∧
    halfOpenOverlap 36000000 (36000000 + 30 * msPerMin) 32400000
      (32400000 + 120 * msPerMin) = true := by
  exact ⟨by decide, by decide⟩

/-- C4 counterexample: a proposed start that is not strictly in the
future is not always reported as 400 — when the proposal also conflicts
with a stored appointment, the handler answers 409, because the conflict
query runs before the past-date check. -/
theorem past_date_conflicting_create_is_409 :
    postAppointment [1] [1]
      [{ doctorId := 1, patientId := 1, appointmentDate := 36000000,
         duration := 30, status := ApptStatus.scheduled }]
      { patientId := 1, doctorId := 1, appointmentDate := 36000000,
        duration := some 30, formatOk := true } 100000000 =
      { statusCode := 409,
        appts := [{ doctorId := 1, patientId := 1, appointmentDate := 36000000,
                    duration := 30, status := ApptStatus.scheduled }] } ∧
    (36000000 : Int) ≤ 100000000 := by
  exact ⟨by decide, by decide⟩

/-- C4 (amended): `POST /appointments` reports a detected scheduling
conflict as 409; a proposed start not strictly in the future is reported
as 400 provided no conflict was detected (the conflict query runs before
the past-date check and takes precedence); a supplied duration outside
[15, 240] minutes is rejected as 400 by validation; and every non-201
outcome leaves the appointment table unchanged. -/
theorem post_appointment_error_branches :
    ∀ (patients doctors : List Nat) (appts : List Appt) (req : PostReq) (now : Int),
      (req.formatOk = true → durationValid req.duration = true →
        req.patientId ∈ patients → req.doctorId ∈ doctors →
        codeHasConflict appts req.doctorId req.appointmentDate (req.duration.getD 30) = true →
        postAppointment patients doctors appts req now =
          { statusCode := 409, appts := appts }) ∧
      (req.formatOk = true → durationValid req.duration = true →
        req.patientId ∈ patients → req.doctorId ∈ doctors →
        codeHasConflict appts req.doctorId req.appointmentDate (req.duration.getD 30) = false →
        req.appointmentDate ≤ now →
        postAppointment patients doctors appts req now =
          { statusCode := 400, appts := appts }) ∧
      (durationValid req.duration = false →
        postAppointment patients doctors appts req now =
          { statusCode := 400, appts := appts }) ∧
      ((postAppointment patients doctors appts req now).statusCode = 201 ∨
        (postAppointment patients doctors appts req now).appts = appts) := by
  intro patients doctors appts req now
  refine ⟨?_, ?_, ?_, ?_⟩
  · intro hf hd hp hdoc hc
    simp [postAppointment, hf, hd, hp, hdoc, hc]
  · intro hf hd hp hdoc hc hpast
    simp [postAppointment, hf, hd, hp, hdoc, hc, hpast]
  · intro hd
    simp [postAppointment, hd]
  · by_cases hc : codeHasConflict appts req.doctorId req.appointmentDate (req.duration.getD 30) = true <;>
      simp only [postAppointment, hc] <;> split_ifs <;> simp_all

/-- Witness for the amended C4: concrete requests hitting the 409, the
past-date 400 and the bad-duration 400 branches, each leaving the store
unchanged. -/
theorem post_appointment_error_branches_witness :
    postAppointment [1] [1]
      [{ doctorId := 1, patientId := 1, appointmentDate := 36000000,
         duration := 30, status := ApptStatus.scheduled }]
      { patientId := 1, doctorId := 1, appointmentDate := 36000000,
        duration := some 30, formatOk := true } 0 =
      { statusCode := 409,
        appts := [{ doctorId := 1, patientId := 1, appointmentDate := 36000000,
                    duration := 30, status := ApptStatus.scheduled }] } ∧
    postAppointment [1] [1] []
      { patientId := 1, doctorId := 1, appointmentDate := 36000000,
        duration := some 30, formatOk := true } 100000000 =
      { statusCode := 400, appts := [] } ∧
    postAppointment [1] [1] []
      { patientId := 1, doctorId := 1, appointmentDate := 36000000,
        duration := some 10, formatOk := true } 0 =
      { statusCode := 400, appts := [] } := by
  refine ⟨?_, ?_, ?_⟩
  · exact (post_appointment_error_branches [1] [1] _ _ 0).1
      (by decide) (by decide) (by decide) (by decide) (by decide)
  · exact (post_appointment_error_branches [1] [1] [] _ 100000000).2.1
      (by decide) (by decide) (by decide) (by decide) (by decide) (by decide)
  · exact (post_appointment_error_branches [1] [1] [] _ 0).2.2.1 (by decide)

/-- Frame of a single attribute application: a projection untouched by
every name satisfying `P` is preserved across a fold of attribute
applications whose keys all satisfy `P`. -/
theorem foldl_setApptField_frame (π : ApptRow → JVal) (P : String → Prop)
    (hπ : ∀ (r : ApptRow) (k : String) (v : JVal), P k → π (setApptField r k v) = π r) :
    ∀ (l : List (String × JVal)) (r : ApptRow), (∀ kv ∈ l, P kv.1) →
      π (l.foldl (fun acc kv => setApptField acc kv.1 kv.2) r) = π r := by
  intro l
  induction l with
  | nil => intro r _; rfl
  | cons kv t ih =>
    intro r hall
    have h1 : P kv.1 := hall kv (List.mem_cons_self kv t)
    have h2 : ∀ kv' ∈ t, P kv'.1 := fun kv' h => hall kv' (List.mem_cons_of_mem kv h)
    simp only [List.foldl_cons]
    rw [ih (setApptField r kv.1 kv.2) h2, hπ r kv.1 kv.2 h1]

set_option maxHeartbeats 1600000 in
/-- C10: `PUT /appointments/:id` never changes `patientId`, `doctorId`,
`appointmentDate`, `duration`, `type`, `reason` or `symptoms` for any
role and any request body; and for a patient actor it additionally never
changes `status`, `cost` or `paymentStatus` — only notes, diagnosis,
prescription, followUpRequired and followUpDate are updatable. -/
theorem put_appointment_frame :
    ∀ (role : Role) (body : List (String × JVal)) (r : ApptRow),
      (updateAppointmentFields role body r).patientId = r.patientId ∧
      (updateAppointmentFields role body r).doctorId = r.doctorId ∧
      (updateAppointmentFields role body r).appointmentDate = r.appointmentDate ∧
      (updateAppointmentFields role body r).duration = r.duration ∧
      (updateAppointmentFields role body r).«type» = r.«type» ∧
      (updateAppointmentFields role body r).reason = r.reason ∧
      (updateAppointmentFields role body r).symptoms = r.symptoms ∧
      (updateAppointmentFields Role.patient body r).status = r.status ∧
      (updateAppointmentFields Role.patient body r).cost = r.cost ∧
      (updateAppointmentFields Role.patient body r).paymentStatus = r.paymentStatus := by
  intro role body r
  have hany : ∀ (π : ApptRow → JVal),
      (∀ (r' : ApptRow) (k : String) (v : JVal), π (setApptField r' k v) = π r') →
      π (updateAppointmentFields role body r) = π r := by
    intro π hπ
    unfold updateAppointmentFields
    exact foldl_setApptField_frame π (fun _ => True) (fun r' k v _ => hπ r' k v) _ r
      (fun _ _ => trivial)
  have hpatientKeys : ∀ kv ∈ body.filter (fun kv =>
      (["notes", "diagnosis", "prescription", "followUpRequired", "followUpDate"] ++
        (if (Role.patient = Role.doctor) then ["status", "cost", "paymentStatus"]
          else [])).contains kv.1),
      kv.1 = "notes" ∨ kv.1 = "diagnosis" ∨ kv.1 = "prescription" ∨
        kv.1 = "followUpRequired" ∨ kv.1 = "followUpDate" := by
    intro kv hkv
    have := List.of_mem_filter hkv
    simpa using this
  have hpat : ∀ (π : ApptRow → JVal),
      (∀ (r' : ApptRow) (v : JVal),
        π (setApptField r' "notes" v) = π r' ∧
        π (setApptField r' "diagnosis" v) = π r' ∧
        π (setApptField r' "prescription" v) = π r' ∧
        π (setApptField r' "followUpRequired" v) = π r' ∧
        π (setApptField r' "followUpDate" v) = π r') →
      π (updateAppointmentFields Role.patient body r) = π r := by
    intro π hπ
    unfold updateAppointmentFields
    refine foldl_setApptField_frame π
      (fun k => k = "notes" ∨ k = "diagnosis" ∨ k = "prescription" ∨
        k = "followUpRequired" ∨ k = "followUpDate") ?_ _ r hpatientKeys
    intro r' k v hk
    rcases hk with h | h | h | h | h <;> subst h
    · exact (hπ r' v).1
    · exact (hπ r' v).2.1
    · exact (hπ r' v).2.2.1
    · exact (hπ r' v).2.2.2.1
    · exact (hπ r' v).2.2.2.2
  refine ⟨hany (fun r => r.patientId) ?_, hany (fun r => r.doctorId) ?_,
    hany (fun r => r.appointmentDate) ?_, hany (fun r => r.duration) ?_,
    hany (fun r => r.«type») ?_, hany (fun r => r.reason) ?_,
    hany (fun r => r.symptoms) ?_,
    hpat (fun r => r.status) ?_, hpat (fun r => r.cost) ?_,
    hpat (fun r => r.paymentStatus) ?_⟩
  · intro r' k v; unfold setApptField; split_ifs <;> rfl
  · intro r' k v; unfold setApptField; split_ifs <;> rfl
  · intro r' k v; unfold setApptField; split_ifs <;> rfl
  · intro r' k v; unfold setApptField; split_ifs <;> rfl
  · intro r' k v; unfold setApptField; split_ifs <;> rfl
  · intro r' k v; unfold setApptField; split_ifs <;> rfl
  · intro r' k v; unfold setApptField; split_ifs <;> rfl
  · intro r' v; refine ⟨?_, ?_, ?_, ?_, ?_⟩ <;> simp [setApptField]
  · intro r' v; refine ⟨?_, ?_, ?_, ?_, ?_⟩ <;> simp [setApptField]
  · intro r' v; refine ⟨?_, ?_, ?_, ?_, ?_⟩ <;> simp [setApptField]

/-- C8 counterexample: sanitization is shallow — a password nested one
level down in the request body is stored verbatim, so not every field
named `password` has its value replaced. -/
theorem nested_password_not_redacted :
    sanitizeBody [("user", JVal.vObj [("password", JVal.vStr "hunter2")])] =
      [("user", JVal.vObj [("password", JVal.vStr "hunter2")])] ∧
    JVal.vStr "hunter2" ≠ JVal.vStr "[REDACTED]" := by
  refine ⟨rfl, ?_⟩
  intro h
  injection h with h'
  exact absurd h' (by decide)

/-- C8 (amended): every top-level request-body field named
password/token/secret/key/ssn/creditCard whose value is truthy is stored
as the redaction marker (a sensitive top-level field surviving with
another value must have been falsy); entries that are not sensitive-and-
truthy pass through unchanged; nested fields are not sanitized; and the
stored response data is only the {status, message, dataCount} summary —
it is a function of the response's status, message and item count alone,
never of the rest of the payload. -/
theorem sanitization_shallow_redaction :
    (∀ (body : List (String × JVal)) (kv : String × JVal),
      kv ∈ sanitizeBody body → sensitiveFields.contains kv.1 = true →
        kv.2 = JVal.vStr "[REDACTED]" ∨ truthy kv.2 = false) ∧
    (∀ (body : List (String × JVal)) (kv : String × JVal),
      kv ∈ body → ¬(sensitiveFields.contains kv.1 = true ∧ truthy kv.2 = true) →
        kv ∈ sanitizeBody body) ∧
    (∀ r1 r2 : RespData, r1.status = r2.status → r1.message = r2.message →
      dataCount r1.data = dataCount r2.data →
      sanitizeResponseData (some r1) = sanitizeResponseData (some r2)) := by
  refine ⟨?_, ?_, ?_⟩
  · intro body kv hmem hsens
    rcases List.mem_map.mp hmem with ⟨kv', hkv', heq⟩
    by_cases hc : (sensitiveFields.contains kv'.1 && truthy kv'.2) = true
    · rw [if_pos hc] at heq
      left
      rw [← heq]
    · rw [if_neg hc] at heq
      subst heq
      right
      simp only [Bool.and_eq_true, not_and] at hc
      exact Bool.eq_false_iff.mpr (hc hsens)
  · intro body kv hmem hnot
    refine List.mem_map.mpr ⟨kv, hmem, ?_⟩
    rw [if_neg]
    intro hc
    simp only [Bool.and_eq_true] at hc
    exact hnot hc
  · intro r1 r2 h1 h2 h3
    cases r1
    cases r2
    simp only at h1 h2 h3
    subst h1
    subst h2
    simp [sanitizeResponseData, h3]

/-- Witness for the amended C8: a top-level truthy password is stored
redacted, and two responses differing only in payload content produce the
same stored summary. -/
theorem sanitization_shallow_redaction_witness :
    (("password", JVal.vStr "[REDACTED]").2 = JVal.vStr "[REDACTED]" ∨
      truthy ("password", JVal.vStr "[REDACTED]").2 = false) ∧
    sanitizeResponseData
        (some (RespData.mk (some "success") none (some (JVal.vArr [JVal.vNum 1])))) =
      sanitizeResponseData
        (some (RespData.mk (some "success") none (some (JVal.vArr [JVal.vNum 99])))) := by
  constructor
  · exact sanitization_shallow_redaction.1 [("password", JVal.vStr "x")]
      ("password", JVal.vStr "[REDACTED]") (List.mem_singleton.mpr rfl) rfl
  · exact sanitization_shallow_redaction.2.2
      (RespData.mk (some "success") none (some (JVal.vArr [JVal.vNum 1])))
      (RespData.mk (some "success") none (some (JVal.vArr [JVal.vNum 99])))
      rfl rfl rfl

theorem ceil_property (len dur : Nat) (hd : 0 < dur) :
    len ≤ ((len + dur - 1) / dur) * dur ∧
    (0 < (len + dur - 1) / dur → (((len + dur - 1) / dur) - 1) * dur < len) := by
  have hmod := Nat.div_add_mod (len + dur - 1) dur
  have hlt : (len + dur - 1) % dur < dur := Nat.mod_lt _ hd
  constructor
  · rw [Nat.mul_comm]
    generalize hX : dur * ((len + dur - 1) / dur) = X at hmod
    omega
  · intro hq
    rcases Nat.eq_zero_or_pos len with hlen | hlen
    · subst hlen
      have hz : (0 + dur - 1) / dur = 0 := Nat.div_eq_of_lt (by omega)
      omega
    · have hexp : (((len + dur - 1) / dur) - 1) * dur = dur * ((len + dur - 1) / dur) - dur := by
        rw [Nat.sub_mul, Nat.one_mul, Nat.mul_comm]
      rw [hexp]
      generalize hX : dur * ((len + dur - 1) / dur) = X at hmod
      omega

theorem slotsLoop_eq_chunkSlots (appts : List Appt) (dur : Nat) (hd : 0 < dur) (endT : Int) :
    ∀ (n : Nat) (current : Int),
      endT ≤ current + (n : Int) * ((dur : Int) * msPerMin) →
      (n = 0 ∨ current + ((n : Int) - 1) * ((dur : Int) * msPerMin) < endT) →
      slotsLoop appts dur hd endT current = chunkSlots appts dur n current := by
  intro n
  induction n with
  | zero =>
    intro current h1 _
    rw [slotsLoop]
    simp only [Nat.cast_zero, zero_mul, add_zero] at h1
    rw [dif_neg (not_lt.mpr h1)]
    rfl
  | succ n ih =>
    intro current h1 h2
    have hdpos : (0 : Int) < (dur : Int) * msPerMin := by
      have hdi : (0 : Int) < (dur : Int) := by exact_mod_cast hd
      have hm : (0 : Int) < msPerMin := by unfold msPerMin; omega
      exact mul_pos hdi hm
    have h2' : current + (n : Int) * ((dur : Int) * msPerMin) < endT := by
      rcases h2 with h2 | h2
      · exact absurd h2 (Nat.succ_ne_zero n)
      · have hcast : ((n + 1 : Nat) : Int) - 1 = (n : Int) := by push_cast; ring
        rwa [hcast] at h2
    have hlt : current < endT := by
      have hnn : (0 : Int) ≤ (n : Int) * ((dur : Int) * msPerMin) := by positivity
      linarith
    have ihapp : slotsLoop appts dur hd endT (current + (dur : Int) * msPerMin) =
        chunkSlots appts dur n (current + (dur : Int) * msPerMin) := by
      apply ih
      · have hrw : current + ((n + 1 : Nat) : Int) * ((dur : Int) * msPerMin) =
            current + (dur : Int) * msPerMin + (n : Int) * ((dur : Int) * msPerMin) := by
          push_cast; ring
        rw [hrw] at h1
        exact h1
      · rcases Nat.eq_zero_or_pos n with hn | hn
        · exact Or.inl hn
        · right
          have hrw : current + (dur : Int) * msPerMin +
              ((n : Int) - 1) * ((dur : Int) * msPerMin) =
              current + (n : Int) * ((dur : Int) * msPerMin) := by ring
          rw [hrw]
          exact h2'
    have key : chunkSlots appts dur (n + 1) current =
        if slotConflicts appts current (current + (dur : Int) * msPerMin) then
          chunkSlots appts dur n (current + (dur : Int) * msPerMin)
        else
          ({ start := current, «end» := current + (dur : Int) * msPerMin,
             duration := dur } : Slot) ::
            chunkSlots appts dur n (current + (dur : Int) * msPerMin) := by
      unfold chunkSlots
      rw [List.range_succ_eq_map, List.map_cons, List.map_map]
      have hfun : (List.range n).map
          ((fun i : Nat => current + (i : Int) * ((dur : Int) * msPerMin)) ∘ (· + 1)) =
          (List.range n).map
            (fun i : Nat => current + (dur : Int) * msPerMin +
              (i : Int) * ((dur : Int) * msPerMin)) := by
        apply List.map_congr_left
        intro i _
        simp only [Function.comp_apply]
        push_cast
        ring
      rw [hfun]
      simp only [Nat.cast_zero, zero_mul, add_zero, List.filter_cons]
      by_cases hc : slotConflicts appts current (current + (dur : Int) * msPerMin) = true
      · simp [hc]
      · simp only [Bool.not_eq_true] at hc
        simp [hc]
    rw [slotsLoop, dif_pos hlt, key]
    by_cases hc : slotConflicts appts current (current + (dur : Int) * msPerMin) = true
    · simp only [hc, if_true, ihapp]
    · simp only [Bool.not_eq_true] at hc
      simp only [hc, Bool.false_eq_true, if_false, ihapp]

theorem availableSlots_eq_spec :
    ∀ (doctorId : Nat) (dayStart : Int) (startMin endMin cdur : Nat) (appts : List Appt),
      availableSlots doctorId dayStart startMin endMin cdur appts =
        specAvailableSlots doctorId dayStart startMin endMin cdur appts := by
  intro did dayStart startMin endMin cdur appts
  unfold availableSlots specAvailableSlots
  have hd : 0 < jsOrNat cdur 30 := jsOrNat_pos _ _ (by omega)
  set dur := jsOrNat cdur 30 with hdur
  set n := (endMin - startMin + dur - 1) / dur with hn
  have hmnonneg : (0 : Int) ≤ msPerMin := by unfold msPerMin; omega
  have hmpos : (0 : Int) < msPerMin := by unfold msPerMin; omega
  apply slotsLoop_eq_chunkSlots
  · have hceil := (ceil_property (endMin - startMin) dur hd).1
    have hNat : (endMin : Int) ≤ (startMin : Int) + (n : Int) * (dur : Int) := by
      rcases le_or_lt endMin startMin with h | h
      · have h2 : (endMin : Int) ≤ (startMin : Int) := by exact_mod_cast h
        nlinarith [show (0 : Int) ≤ (n : Int) * (dur : Int) from by positivity]
      · have hcast : ((endMin - startMin : Nat) : Int) = (endMin : Int) - startMin := by
          push_cast [Nat.cast_sub h.le]
          ring
        have hle : ((endMin - startMin : Nat) : Int) ≤ (n : Int) * (dur : Int) := by
          exact_mod_cast hceil
        rw [hcast] at hle
        linarith
    have hscaled := mul_le_mul_of_nonneg_right hNat hmnonneg
    ring_nf at hscaled ⊢
    linarith
  · rcases Nat.eq_zero_or_pos n with hn0 | hn0
    · exact Or.inl hn0
    · right
      have hlt := (ceil_property (endMin - startMin) dur hd).2 hn0
      have hlen_pos : 0 < endMin - startMin := Nat.pos_of_ne_zero (by omega)
      have hms : startMin < endMin := by omega
      have hcast1 : ((n - 1 : Nat) : Int) = (n : Int) - 1 := by
        push_cast [Nat.cast_sub hn0]
        ring
      have hcast2 : ((endMin - startMin : Nat) : Int) = (endMin : Int) - startMin := by
        push_cast [Nat.cast_sub hms.le]
        ring
      have hInt : ((n : Int) - 1) * (dur : Int) < (endMin : Int) - startMin := by
        have hc : ((n - 1 : Nat) * dur : Nat) < ((endMin - startMin : Nat)) := hlt
        have hc2 : (((n - 1 : Nat) * dur : Nat) : Int) < ((endMin - startMin : Nat) : Int) := by
          exact_mod_cast hc
        rw [hcast2] at hc2
        calc ((n : Int) - 1) * (dur : Int) = (((n - 1 : Nat) * dur : Nat) : Int) := by
              push_cast [Nat.cast_sub hn0]
              ring
          _ < (endMin : Int) - startMin := hc2
      have hscaled := mul_lt_mul_of_pos_right hInt hmpos
      ring_nf at hscaled ⊢
      linarith


/-- C3: the availability computation equals the reference partition — the
daily window cut into consecutive `consultationDuration`-minute chunks
from the window's start, a chunk emitted iff it does not overlap
(half-open rule) any fetched scheduled/confirmed appointment; for a
09:00-17:00 window with 30-minute chunks and no appointments this is
exactly 16 slots from {09:00,09:30} to {16:30,17:00}, and one existing
appointment 10:00-10:30 removes exactly the 10:00 slot. -/
theorem availability_slot_partition :
    (∀ (doctorId : Nat) (dayStart : Int) (startMin endMin cdur : Nat) (appts : List Appt),
      availableSlots doctorId dayStart startMin endMin cdur appts =
        specAvailableSlots doctorId dayStart startMin endMin cdur appts) ∧
    (availableSlots 1 0 540 1020 30 []).length = 16 ∧
    (availableSlots 1 0 540 1020 30 []).head? =
      some { start := 32400000, «end» := 34200000, duration := 30 } ∧
    (availableSlots 1 0 540 1020 30 []).getLast? =
      some { start := 59400000, «end» := 61200000, duration := 30 } ∧
    availableSlots 1 0 540 1020 30
        [{ doctorId := 1, patientId := 1, appointmentDate := 36000000, duration := 30,
           status := ApptStatus.scheduled }] =
      (availableSlots 1 0 540 1020 30 []).filter fun s => decide (s.start ≠ 36000000) := by
  refine ⟨availableSlots_eq_spec, ?_, ?_, ?_, ?_⟩
  · rw [availableSlots_eq_spec]
    decide
  · rw [availableSlots_eq_spec]
    decide
  · rw [availableSlots_eq_spec]
    decide
  · rw [availableSlots_eq_spec, availableSlots_eq_spec]
    decide

end Healthcare
